import Mathlib

/-!
Verification of the iterative joke-refinement core of the repository:
the Critic's feedback decoding path (`app/agents/critic.py`), the
Performer's revision path (`app/agents/performer.py`), and the
history/session state machine of the Streamlit driver (`app/main.py`).

All code is embedded shallowly: strings are handled as `List Char`,
Python exceptions become `Except`/`Option`, and the Streamlit session
state becomes an explicit record threaded through the action handlers.
-/

set_option maxRecDepth 100000

namespace JokeAgents

/-- Literal left brace character (code 123), kept as a named constant. -/
def lbrace : Char := Char.ofNat 123

/-- Literal right brace character (code 125). -/
def rbrace : Char := Char.ofNat 125

/-- The whitespace characters removed by Python's `str.strip()`
(space, tab, newline, carriage return, vertical tab, form feed). -/
def isPySpace (c : Char) : Bool :=
  c = ' ' || c = '\t' || c = '\n' || c = '\r' || c = Char.ofNat 11 || c = Char.ofNat 12

/-- `str.strip()` from the left. -/
def lstripL : List Char → List Char
  | [] => []
  | c :: rest => if isPySpace c then lstripL rest else c :: rest

/-- Python `str.strip()` over a character list. -/
def stripL (cs : List Char) : List Char :=
  ((lstripL ((lstripL cs).reverse)).reverse)

/-- Boolean prefix test over character lists. -/
def prefixL : List Char → List Char → Bool
  | [], _ => true
  | _ :: _, [] => false
  | p :: ps, c :: cs => p = c && prefixL ps cs

/-- Boolean suffix test over character lists. -/
def suffixL (p cs : List Char) : Bool :=
  prefixL p.reverse cs.reverse

/-- Drop the last `n` characters (Python `s[:-n]`). -/
def dropRightL (cs : List Char) (n : Nat) : List Char :=
  cs.take (cs.length - n)

/-!
### The Critic's JSON extraction (`CriticAgent._extract_json_from_response`)

The source scans the cleaned content with the Python regex
`r'\{[^{}]*(?:\{[^{}]*\}[^{}]*)*\}'` (re.findall) and returns the first
match, falling back to the cleaned content when there is no match.
Because the character classes of the pattern are disjoint, the regex
engine's search is equivalent to the following deterministic scanner:
at each position holding a left brace, consume non-brace characters,
allowing inner objects of nesting depth exactly one; a left brace at
depth 2 aborts the attempt at this position (the pattern has no deeper
alternative, and no backtracking can recover because `[^{}]` and the
brace literals match disjoint character sets).
-/

/-- Brace matching capped at depth 2, modelling one match attempt of the
source regex starting just after a left brace at depth `d`: returns the
consumed characters (up to and including the closing brace of depth 1). -/
def balCapped : List Char → Nat → Option (List Char)
  | [], _ => none
  | c :: rest, d =>
    if c = lbrace then
      if 2 ≤ d then none
      else (balCapped rest (d + 1)).map (fun t => c :: t)
    else if c = rbrace then
      if d = 1 then some [c]
      else (balCapped rest (d - 1)).map (fun t => c :: t)
    else (balCapped rest d).map (fun t => c :: t)

/-- The first (leftmost) match of the source regex in the content:
`re.findall(json_pattern, content)[0]` when a match exists. -/
def regexFirstMatch : List Char → Option (List Char)
  | [] => none
  | c :: rest =>
    if c = lbrace then
      match balCapped rest 1 with
      | some t => some (c :: t)
      | none => regexFirstMatch rest
    else regexFirstMatch rest

/-- Uncapped brace matching: the shortest prefix that closes an object
opened at depth `d`.  This is the specification-side notion used by the
spec's step "scan for the first balanced `\x7b...\x7d` object". -/
def bal : List Char → Nat → Option (List Char)
  | [], _ => none
  | c :: rest, d =>
    if c = lbrace then (bal rest (d + 1)).map (fun t => c :: t)
    else if c = rbrace then
      if d = 1 then some [c]
      else (bal rest (d - 1)).map (fun t => c :: t)
    else (bal rest d).map (fun t => c :: t)

/-- The first balanced brace-delimited object in the content
(specification-side definition, from the spec's words: "Scan for the
first balanced `\x7b...\x7d` object (brace-matching ... to tolerate
nested objects)"). -/
def firstBalanced : List Char → Option (List Char)
  | [] => none
  | c :: rest =>
    if c = lbrace then
      match bal rest 1 with
      | some t => some (c :: t)
      | none => firstBalanced rest
    else firstBalanced rest

/-- Maximum brace-nesting depth reached while scanning `cs` starting at
depth `d`. -/
def scanMaxDepth : List Char → Nat → Nat
  | [], d => d
  | c :: rest, d =>
    if c = lbrace then max (d + 1) (scanMaxDepth rest (d + 1))
    else if c = rbrace then scanMaxDepth rest (d - 1)
    else scanMaxDepth rest d

/-- Markdown-fence and whitespace cleaning performed by
`_extract_json_from_response` before the regex scan. -/
def cleanContent (cs : List Char) : List Char :=
  let c1 := stripL cs
  let c2 :=
    if prefixL "```json".data c1 then c1.drop 7
    else if prefixL "```".data c1 then c1.drop 3
    else c1
  let c3 := if suffixL "```".data c2 then dropRightL c2 3 else c2
  stripL c3

/-- `CriticAgent._extract_json_from_response` over character lists:
clean, scan with the regex, and fall back to the cleaned content when
the regex finds no object. -/
def extractJsonL (cs : List Char) : List Char :=
  let content := cleanContent cs
  match regexFirstMatch content with
  | some m => m
  | none => content

/-- `CriticAgent._extract_json_from_response` at the `String` level. -/
def extract_json_from_response (s : String) : String :=
  String.mk (extractJsonL s.data)

/-!
### JSON values and parsing

The source parses the extracted candidate with LangChain's
`JsonOutputParser.parse` and, if that raises, with `json.loads`; both
accept exactly well-formed JSON documents on ordinary input (the
LangChain parser is additionally lenient about raw control characters
inside strings, which the model below also accepts, and can repair a
document truncated at its very tail; such a repair can only succeed
into a validated record when every required field is already present).
JSON numbers are modelled exactly as unnormalized decimals
`mant * 10 ^ exp10` together with a flag recording whether the literal
was an integer literal; `NaN`/`Infinity` extensions are not modelled.
-/

inductive Json where
  | null
  | bool (b : Bool)
  | num (mant : Int) (exp10 : Int) (isInt : Bool)
  | str (s : String)
  | arr (elems : List Json)
  | obj (fields : List (String × Json))

/-- JSON insignificant whitespace (as skipped by `json.loads`). -/
def skipWs : List Char → List Char
  | [] => []
  | c :: rest =>
    if c = ' ' ∨ c = '\t' ∨ c = '\n' ∨ c = '\r' then skipWs rest else c :: rest

/-- Split a leading run of decimal digits. -/
def takeDigits : List Char → List Char × List Char
  | [] => ([], [])
  | c :: rest =>
    if c.isDigit then
      let (ds, r) := takeDigits rest
      (c :: ds, r)
    else ([], c :: rest)

/-- Decimal digits to a natural number (accumulator form). -/
def digitsToNat : List Char → Nat → Nat
  | [], acc => acc
  | c :: rest, acc => digitsToNat rest (acc * 10 + (c.toNat - 48))

/-- Parse a JSON number literal (sign, integer part without leading
zeros, optional fraction, optional exponent), returning its exact
decimal value as `mant * 10 ^ (exp - fraction length)` and whether it
was an integer literal. -/
def parseNumber (cs : List Char) : Option (Json × List Char) :=
  let (neg, cs1) :=
    match cs with
    | c :: rest => if c = '-' then (true, rest) else (false, cs)
    | [] => (false, cs)
  match takeDigits cs1 with
  | ([], _) => none
  | (d :: ds, cs2) =>
    if d = '0' ∧ ds ≠ [] then none
    else
      let fracRes : Option (List Char × List Char × Bool) :=
        match cs2 with
        | c :: rest =>
          if c = '.' then
            match takeDigits rest with
            | ([], _) => none
            | (fs, r) => some (fs, r, true)
          else some ([], cs2, false)
        | [] => some ([], cs2, false)
      match fracRes with
      | none => none
      | some (fracDs, cs3, hasFrac) =>
        let expRes : Option (Int × List Char × Bool) :=
          match cs3 with
          | c :: rest =>
            if c = 'e' ∨ c = 'E' then
              let (esign, rest2) :=
                match rest with
                | c2 :: r2 =>
                  if c2 = '+' then ((1 : Int), r2)
                  else if c2 = '-' then ((-1 : Int), r2)
                  else ((1 : Int), rest)
                | [] => ((1 : Int), rest)
              match takeDigits rest2 with
              | ([], _) => none
              | (es, r3) => some (esign * (digitsToNat es 0 : Int), r3, true)
            else some (0, cs3, false)
          | [] => some (0, cs3, false)
        match expRes with
        | none => none
        | some (ex, cs4, hasExp) =>
          let mag : Nat := digitsToNat (d :: ds ++ fracDs) 0
          let mant : Int := if neg then -(mag : Int) else (mag : Int)
          some (.num mant (ex - fracDs.length) (¬ hasFrac ∧ ¬ hasExp), cs4)

/-- Hexadecimal digit value. -/
def hexVal (c : Char) : Option Nat :=
  if c.isDigit then some (c.toNat - 48)
  else if 'a' ≤ c ∧ c ≤ 'f' then some (c.toNat - 87)
  else if 'A' ≤ c ∧ c ≤ 'F' then some (c.toNat - 55)
  else none

/-- Parse the body of a JSON string after the opening quote, handling
the JSON escape sequences (surrogate pairs are kept as two separate
code points; raw control characters are accepted, as the first-stage
parser in the source runs `json.loads` in non-strict mode). -/
def parseStringBody : List Char → Option (List Char × List Char)
  | [] => none
  | c :: rest =>
    if c = '"' then some ([], rest)
    else if c = '\\' then
      match rest with
      | [] => none
      | e :: rest2 =>
        if e = '"' ∨ e = '\\' ∨ e = '/' then
          (parseStringBody rest2).map (fun p => (e :: p.1, p.2))
        else if e = 'b' then
          (parseStringBody rest2).map (fun p => (Char.ofNat 8 :: p.1, p.2))
        else if e = 'f' then
          (parseStringBody rest2).map (fun p => (Char.ofNat 12 :: p.1, p.2))
        else if e = 'n' then
          (parseStringBody rest2).map (fun p => ('\n' :: p.1, p.2))
        else if e = 'r' then
          (parseStringBody rest2).map (fun p => ('\r' :: p.1, p.2))
        else if e = 't' then
          (parseStringBody rest2).map (fun p => ('\t' :: p.1, p.2))
        else if e = 'u' then
          match rest2 with
          | h1 :: h2 :: h3 :: h4 :: rest3 =>
            match hexVal h1, hexVal h2, hexVal h3, hexVal h4 with
            | some a, some b, some c', some d' =>
              (parseStringBody rest3).map
                (fun p => (Char.ofNat (a * 4096 + b * 256 + c' * 16 + d') :: p.1, p.2))
            | _, _, _, _ => none
          | _ => none
        else none
    else (parseStringBody rest).map (fun p => (c :: p.1, p.2))

mutual

/-- Parse one JSON value (fuel-indexed recursive descent). -/
def parseValue : Nat → List Char → Option (Json × List Char)
  | 0, _ => none
  | fuel + 1, cs =>
    match cs with
    | [] => none
    | c :: rest =>
      if c = lbrace then parseObjectRest fuel (skipWs rest)
      else if c = '[' then parseArrayRest fuel (skipWs rest)
      else if c = '"' then
        (parseStringBody rest).map (fun p => (Json.str (String.mk p.1), p.2))
      else if prefixL "true".data cs then some (Json.bool true, cs.drop 4)
      else if prefixL "false".data cs then some (Json.bool false, cs.drop 5)
      else if prefixL "null".data cs then some (Json.null, cs.drop 4)
      else parseNumber cs

/-- Parse an object after the opening brace (whitespace skipped). -/
def parseObjectRest : Nat → List Char → Option (Json × List Char)
  | 0, _ => none
  | fuel + 1, cs =>
    match cs with
    | c :: rest =>
      if c = rbrace then some (Json.obj [], rest)
      else parseMembers fuel cs []
    | [] => none

/-- Parse the members of an object, accumulating key/value pairs in
order (duplicate keys are kept; lookup takes the last one, matching
Python dict construction where later keys overwrite earlier ones). -/
def parseMembers : Nat → List Char → List (String × Json) → Option (Json × List Char)
  | 0, _, _ => none
  | fuel + 1, cs, acc =>
    match cs with
    | c :: rest =>
      if c = '"' then
        match parseStringBody rest with
        | none => none
        | some (k, r1) =>
          match skipWs r1 with
          | c1 :: r2 =>
            if c1 = ':' then
              match parseValue fuel (skipWs r2) with
              | none => none
              | some (v, r3) =>
                match skipWs r3 with
                | c2 :: r4 =>
                  if c2 = ',' then
                    parseMembers fuel (skipWs r4) (acc ++ [(String.mk k, v)])
                  else if c2 = rbrace then
                    some (Json.obj (acc ++ [(String.mk k, v)]), r4)
                  else none
                | [] => none
            else none
          | [] => none
      else none
    | [] => none

/-- Parse an array after the opening bracket (whitespace skipped). -/
def parseArrayRest : Nat → List Char → Option (Json × List Char)
  | 0, _ => none
  | fuel + 1, cs =>
    match cs with
    | c :: rest =>
      if c = ']' then some (Json.arr [], rest)
      else parseItems fuel cs []
    | [] => none

/-- Parse the items of an array, accumulating values in order. -/
def parseItems : Nat → List Char → List Json → Option (Json × List Char)
  | 0, _, _ => none
  | fuel + 1, cs, acc =>
    match parseValue fuel cs with
    | none => none
    | some (v, r1) =>
      match skipWs r1 with
      | c :: r2 =>
        if c = ',' then parseItems fuel (skipWs r2) (acc ++ [v])
        else if c = ']' then some (Json.arr (acc ++ [v]), r2)
        else none
      | [] => none

end

/-- Parse a complete JSON document (`json.loads`): one value and
nothing but whitespace around it. -/
def parseJson (s : String) : Option Json :=
  let cs := skipWs s.data
  match parseValue (3 * cs.length + 16) cs with
  | some (j, rest) => if skipWs rest = [] then some j else none
  | none => none

/-!
### Pydantic validation (`JokeFeedback(**feedback_dict)`)

The pydantic model `JokeFeedback` in `app/agents/critic.py` requires
all six fields; `laughability_score` is an `int` constrained to
`ge=0, le=100` (lax mode also accepts an integral float or a numeric
string), `age_appropriateness` is the literal set
Child/Teen/Adult, the three list fields are non-empty lists of
strings, and `overall_verdict` is a string.  Extra keys are ignored.
Validation is all-or-nothing: any failing field raises
`ValidationError`, which the caller's broad `except` turns into the
fixed fallback record.
-/

/-- The structured feedback record (`JokeFeedback` pydantic model). -/
structure JokeFeedback where
  laughability_score : Int
  age_appropriateness : String
  strengths : List String
  weaknesses : List String
  suggestions : List String
  overall_verdict : String
deriving DecidableEq, Repr

/-- Value of a key in a parsed object; later duplicates overwrite
earlier ones, as in a Python dict built by `json.loads`. -/
def lookupLast (fields : List (String × Json)) (key : String) : Option Json :=
  match fields with
  | [] => none
  | (k, v) :: rest =>
    match lookupLast rest key with
    | some v' => some v'
    | none => if k = key then some v else none

/-- All characters are decimal digits. -/
def allDigits : List Char → Bool
  | [] => true
  | c :: rest => c.isDigit && allDigits rest

/-- Pydantic lax coercion of a string to an integer. -/
def strToInt (s : String) : Option Int :=
  let cs := s.data
  let (neg, ds) :=
    match cs with
    | c :: rest =>
      if c = '-' then (true, rest)
      else if c = '+' then (false, rest)
      else (false, cs)
    | [] => (false, cs)
  if ds ≠ [] ∧ allDigits ds then
    let n : Int := digitsToNat ds 0
    some (if neg then -n else n)
  else none

/-- `10 ^ n` as an integer (structural, kernel-friendly). -/
def pow10 : Nat → Int
  | 0 => 1
  | n + 1 => 10 * pow10 n

/-- Pydantic lax validation of an `int` field: an integer (a JSON
number of integral value) or a numeric string; booleans are rejected. -/
def pyInt : Json → Option Int
  | .num mant exp10 _ =>
    if 0 ≤ exp10 then some (mant * pow10 exp10.toNat)
    else
      let p := pow10 (-exp10).toNat
      if mant % p = 0 then some (mant / p) else none
  | .str s => strToInt s
  | _ => none

/-- Pydantic validation of a `str` field (no coercion from numbers). -/
def pyStr : Json → Option String
  | .str s => some s
  | _ => none

/-- Pydantic validation of a `List[str]` field. -/
def pyStrList : Json → Option (List String)
  | .arr xs => xs.mapM pyStr
  | _ => none

/-- Integer field of a parsed object. -/
def intField (fields : List (String × Json)) (key : String) : Option Int :=
  (lookupLast fields key).bind pyInt

/-- String field of a parsed object. -/
def strField (fields : List (String × Json)) (key : String) : Option String :=
  (lookupLast fields key).bind pyStr

/-- String-list field of a parsed object. -/
def strListField (fields : List (String × Json)) (key : String) : Option (List String) :=
  (lookupLast fields key).bind pyStrList

/-- `JokeFeedback(**feedback_dict)`: validate a parsed JSON value
against the pydantic schema.  `none` models a raised
`ValidationError`/`TypeError` (also for non-object payloads). -/
def validate_feedback (j : Json) : Option JokeFeedback :=
  match j with
  | .obj fields =>
    match intField fields "laughability_score",
          strField fields "age_appropriateness",
          strListField fields "strengths",
          strListField fields "weaknesses",
          strListField fields "suggestions",
          strField fields "overall_verdict" with
    | some sc, some age, some sts, some wks, some sgs, some vd =>
      if 0 ≤ sc ∧ sc ≤ 100 then
        if age = "Child" ∨ age = "Teen" ∨ age = "Adult" then
          if sts ≠ [] ∧ wks ≠ [] ∧ sgs ≠ [] then
            some ⟨sc, age, sts, wks, sgs, vd⟩
          else none
        else none
      else none
    | _, _, _, _, _, _ => none
  | _ => none

/-- The fixed fallback record built in `CriticAgent.evaluate_joke`'s
`except` branch. -/
def fallback_feedback : JokeFeedback :=
  { laughability_score := 50
    age_appropriateness := "Teen"
    strengths := ["Joke was generated"]
    weaknesses := ["Could not properly evaluate due to format error"]
    suggestions := ["Try using a different LLM provider or model"]
    overall_verdict := "Evaluation incomplete - please try re-evaluation or switch models" }

/-- The fixed fallback record built in `CriticAgent.reevaluate_joke`'s
`except` branch (same placeholders, re-evaluation verdict). -/
def reevaluate_fallback_feedback : JokeFeedback :=
  { fallback_feedback with
    overall_verdict := "Re-evaluation incomplete - please try re-evaluation or switch models" }

/-- The body of the outer `try` in `evaluate_joke`/`reevaluate_joke`:
extract the candidate payload, parse it, and validate it.  `none`
models any exception raised inside the `try`. -/
def decode_core (raw : String) : Option JokeFeedback :=
  (parseJson (extract_json_from_response raw)).bind validate_feedback

/-- The parsing stage of `CriticAgent.evaluate_joke` applied to the raw
model output: the `try`/`except` makes it total, with the fixed
fallback on any failure. -/
def evaluate_joke_decode (raw : String) : JokeFeedback :=
  (decode_core raw).getD fallback_feedback

/-- The parsing stage of `CriticAgent.reevaluate_joke`. -/
def reevaluate_joke_decode (raw : String) : JokeFeedback :=
  (decode_core raw).getD reevaluate_fallback_feedback

/-!
### The refinement history and action handlers (`app/main.py`)

`st.session_state` keeps the mutable data: `history` (a list of dicts
with keys `joke`, `feedback`, `cycle_type` and, for revised cycles,
`previous_joke`), the `workflow_complete` flag, and the `workflow`
object (modelled as a flag recording whether it is non-`None`).  The
Generator/Evaluator network calls are passed in as `Except`-valued
functions; `Except.error` models a raised exception caught by the
handler's broad `except` block.
-/

/-- One history entry, as appended by the handlers in `app/main.py`. -/
structure Cycle where
  joke : String
  feedback : JokeFeedback
  cycle_type : String
  previous_joke : Option String := none
deriving DecidableEq, Repr

/-- The relevant fields of `st.session_state`. -/
structure SessionState where
  history : List Cycle
  workflow_complete : Bool
  workflow_init : Bool
deriving DecidableEq, Repr

/-- Outcome of one button handler, as observed by the user. -/
inductive ActionResult where
  | success
  | noHistory
  | errorCaught
deriving DecidableEq, Repr

/-- `handle_refine_action`: revise the latest joke and evaluate the
revision, appending one `"revised"` cycle; any raise inside the `try`
(uninitialized workflow, generator error, empty revision, evaluator
error) is caught and leaves the state untouched.  The source also
guards `if not new_feedback`, but the feedback dict produced by
`model_dump()` always has six keys and is never falsy, so that guard
cannot fire and is not modelled. -/
def handle_refine_action
    (revise_joke : String → JokeFeedback → Except String String)
    (evaluate_joke : String → Except String JokeFeedback)
    (s : SessionState) : SessionState × ActionResult :=
  match s.history.getLast? with
  | none => (s, .noHistory)
  | some latest =>
    if ¬ s.workflow_init then (s, .errorCaught)
    else
      match revise_joke latest.joke latest.feedback with
      | .error _ => (s, .errorCaught)
      | .ok revised =>
        if revised = "" then (s, .errorCaught)
        else
          match evaluate_joke revised with
          | .error _ => (s, .errorCaught)
          | .ok fb =>
            ({ s with
               history := s.history ++ [⟨revised, fb, "revised", some latest.joke⟩] },
             .success)

/-- `handle_reevaluate_action`: run a fresh evaluation of the latest
joke and append one `"reevaluated"` cycle carrying the same joke; any
raise inside the `try` is caught and leaves the state untouched. -/
def handle_reevaluate_action
    (reevaluate_joke : String → Except String JokeFeedback)
    (s : SessionState) : SessionState × ActionResult :=
  match s.history.getLast? with
  | none => (s, .noHistory)
  | some latest =>
    if ¬ s.workflow_init then (s, .errorCaught)
    else
      match reevaluate_joke latest.joke with
      | .error _ => (s, .errorCaught)
      | .ok fb =>
        ({ s with history := s.history ++ [⟨latest.joke, fb, "reevaluated", none⟩] },
         .success)

/-- `handle_complete_action`: set the completion flag. -/
def handle_complete_action (s : SessionState) : SessionState :=
  { s with workflow_complete := true }

/-- The three action buttons of the latest cycle. -/
inductive UserAction where
  | refine
  | reevaluate
  | complete
deriving DecidableEq, Repr

/-- The action dispatch of `display_evaluation_with_actions`: the
buttons are rendered only when `workflow_complete` is false, so on a
completed session no action reaches a handler (`none`: nothing
happens, no error of any kind is reported). -/
def display_evaluation_with_actions
    (revise_joke : String → JokeFeedback → Except String String)
    (evaluate_joke : String → Except String JokeFeedback)
    (reevaluate_joke : String → Except String JokeFeedback)
    (s : SessionState) (a : UserAction) : SessionState × Option ActionResult :=
  if s.workflow_complete then (s, none)
  else
    match a with
    | .refine =>
      let r := handle_refine_action revise_joke evaluate_joke s
      (r.1, some r.2)
    | .reevaluate =>
      let r := handle_reevaluate_action reevaluate_joke s
      (r.1, some r.2)
    | .complete => (handle_complete_action s, some .success)

/-- Outcome of the generate/submit branch of `main()`. -/
inductive SubmitResult where
  | success
  | emptyTopic
  | errorCaught
deriving DecidableEq, Repr

/-- The generate branch of `main()`: an empty topic is rejected with a
warning before anything else happens; otherwise the history is cleared
and the completion flag reset, the workflow is built and stored
(`build_workflow` models `get_performer_llm`/`get_critic_llm`/
`JokeWorkflow`), the workflow runs, and on success the `"initial"`
cycle is appended.  All failures inside the `try` are caught after the
history was already cleared. -/
def submit_topic
    (build_workflow : Except String Unit)
    (run_workflow : String → Except String (String × JokeFeedback))
    (prompt : String) (s : SessionState) : SessionState × SubmitResult :=
  if prompt = "" then (s, .emptyTopic)
  else
    let s1 : SessionState := { s with history := [], workflow_complete := false }
    match build_workflow with
    | .error _ => (s1, .errorCaught)
    | .ok _ =>
      let s2 : SessionState := { s1 with workflow_init := true }
      match run_workflow prompt with
      | .error _ => (s2, .errorCaught)
      | .ok (joke, fb) =>
        ({ s2 with history := [⟨joke, fb, "initial", none⟩] }, .success)

/-!
### Concrete fixtures used by witnesses and counterexamples
-/

/-- A validated feedback record. -/
def fb0 : JokeFeedback := ⟨70, "Teen", ["s"], ["w"], ["g"], "v"⟩

/-- A second validated feedback record. -/
def fb1 : JokeFeedback := ⟨85, "Adult", ["s2"], ["w2"], ["g2"], "v2"⟩

/-- An initial cycle. -/
def cyc0 : Cycle := ⟨"J", fb0, "initial", none⟩

/-- An active session with one initial cycle. -/
def s0 : SessionState := ⟨[cyc0], false, true⟩

/-- The same session after the user clicked "I'm All Set". -/
def sdone : SessionState := ⟨[cyc0], true, true⟩

/-- A generator mock returning a fixed distinct revision. -/
def reviseOk : String → JokeFeedback → Except String String := fun _ _ => .ok "K"

/-- A generator mock that raises. -/
def reviseErr : String → JokeFeedback → Except String String := fun _ _ => .error "boom"

/-- A generator mock that returns its input unchanged. -/
def reviseEcho : String → JokeFeedback → Except String String := fun j _ => .ok j

/-- An evaluator mock returning a fixed feedback. -/
def evalOk : String → Except String JokeFeedback := fun _ => .ok fb1

/-- An evaluator mock that raises. -/
def evalErr : String → Except String JokeFeedback := fun _ => .error "boom"

/-!
### Lemmas about the extraction scanners
-/

/-- A successful attempt of the depth-capped scanner is also a
successful uncapped balanced match, with the same consumed prefix. -/
theorem bal_of_balCapped (cs : List Char) :
    ∀ d t, balCapped cs d = some t → bal cs d = some t := by
  induction cs with
  | nil => simp [balCapped]
  | cons c rest ih =>
    intro d t h
    simp only [balCapped] at h
    simp only [bal]
    by_cases hc : c = lbrace
    · rw [if_pos hc] at h ⊢
      by_cases h2 : 2 ≤ d
      · rw [if_pos h2] at h; exact absurd h (by simp)
      · rw [if_neg h2] at h
        obtain ⟨t', ht', rfl⟩ := Option.map_eq_some'.mp h
        rw [ih _ _ ht']; rfl
    · rw [if_neg hc] at h ⊢
      by_cases hr : c = rbrace
      · rw [if_pos hr] at h ⊢
        by_cases hd : d = 1
        · rwa [if_pos hd] at h ⊢
        · rw [if_neg hd] at h ⊢
          obtain ⟨t', ht', rfl⟩ := Option.map_eq_some'.mp h
          rw [ih _ _ ht']; rfl
      · rw [if_neg hr] at h ⊢
        obtain ⟨t', ht', rfl⟩ := Option.map_eq_some'.mp h
        rw [ih _ _ ht']; rfl

/-- When the balanced object found by the uncapped scanner never nests
deeper than 2, the depth-capped scanner finds exactly the same match. -/
theorem balCapped_of_bal (cs : List Char) :
    ∀ d t, bal cs d = some t → scanMaxDepth t d ≤ 2 → balCapped cs d = some t := by
  induction cs with
  | nil => simp [bal]
  | cons c rest ih =>
    intro d t h hdep
    simp only [bal] at h
    simp only [balCapped]
    by_cases hc : c = lbrace
    · rw [if_pos hc] at h ⊢
      obtain ⟨t', ht', rfl⟩ := Option.map_eq_some'.mp h
      simp only [scanMaxDepth, if_pos hc] at hdep
      have h2 : ¬ 2 ≤ d := by omega
      have ht2 : scanMaxDepth t' (d + 1) ≤ 2 := le_trans (le_max_right _ _) hdep
      rw [if_neg h2, ih _ _ ht' ht2]; rfl
    · rw [if_neg hc] at h ⊢
      by_cases hr : c = rbrace
      · rw [if_pos hr] at h ⊢
        by_cases hd : d = 1
        · rwa [if_pos hd] at h ⊢
        · rw [if_neg hd] at h ⊢
          obtain ⟨t', ht', rfl⟩ := Option.map_eq_some'.mp h
          simp only [scanMaxDepth, if_neg hc, if_pos hr] at hdep
          rw [ih _ _ ht' hdep]; rfl
      · rw [if_neg hr] at h ⊢
        obtain ⟨t', ht', rfl⟩ := Option.map_eq_some'.mp h
        simp only [scanMaxDepth, if_neg hc, if_neg hr] at hdep
        rw [ih _ _ ht' hdep]; rfl

/-- If the first balanced object of the content nests at most one level
of inner objects, the regex scan finds exactly that object. -/
theorem regexFirstMatch_eq_firstBalanced (cs : List Char) :
    ∀ s, firstBalanced cs = some s → scanMaxDepth s 0 ≤ 2 →
      regexFirstMatch cs = some s := by
  induction cs with
  | nil => simp [firstBalanced]
  | cons c rest ih =>
    intro s h hdep
    simp only [firstBalanced] at h
    simp only [regexFirstMatch]
    by_cases hc : c = lbrace
    · rw [if_pos hc] at h ⊢
      cases hb : bal rest 1 with
      | some t =>
        rw [hb] at h
        simp only [Option.some.injEq] at h
        subst h
        simp only [scanMaxDepth, if_pos hc] at hdep
        have ht : scanMaxDepth t 1 ≤ 2 := le_trans (le_max_right _ _) hdep
        rw [balCapped_of_bal rest 1 t hb ht]
      | none =>
        rw [hb] at h
        have hbc : balCapped rest 1 = none := by
          cases hx : balCapped rest 1 with
          | none => rfl
          | some t => rw [bal_of_balCapped rest 1 t hx] at hb; exact absurd hb (by simp)
        rw [hbc]
        exact ih s h hdep
    · rw [if_neg hc] at h ⊢
      exact ih s h hdep

/-- Every successfully validated feedback record satisfies the schema
invariants enforced by the pydantic model. -/
theorem validate_feedback_invariants (j : Json) (fb : JokeFeedback)
    (h : validate_feedback j = some fb) :
    (0 ≤ fb.laughability_score ∧ fb.laughability_score ≤ 100) ∧
    (fb.age_appropriateness = "Child" ∨ fb.age_appropriateness = "Teen" ∨
       fb.age_appropriateness = "Adult") ∧
    fb.strengths ≠ [] ∧ fb.weaknesses ≠ [] ∧ fb.suggestions ≠ [] := by
  cases j
  case obj fields =>
    simp only [validate_feedback] at h
    split at h
    · split_ifs at h with h1 h2 h3
      cases h
      exact ⟨h1, h2, h3⟩
    · exact Option.noConfusion h
  all_goals exact Option.noConfusion h

/-!
### Claim theorems
-/

/-- **C9 counterexample.**  On a candidate payload whose first balanced
object nests three levels of braces, the source's regex extraction
returns an inner object, not the first balanced object: the claim
"including arbitrarily nested objects" fails on the code, whose regex
tolerates exactly one level of inner objects. -/
def c9_input : String := "\x7b\"a\":\x7b\"b\":\x7b\"c\":1\x7d\x7d\x7d"

/-- The extraction step applied to a depth-3 object returns a proper
inner object instead of the first balanced object. -/
theorem extraction_depth3_counterexample :
    firstBalanced (cleanContent c9_input.data) = some c9_input.data ∧
    extract_json_from_response c9_input = "\x7b\"b\":\x7b\"c\":1\x7d\x7d" ∧
    "\x7b\"b\":\x7b\"c\":1\x7d\x7d" ≠ c9_input :=
  ⟨by decide, by decide, by decide⟩

/-- **C9 (amended).**  For every cleaned response text containing a
balanced object, the extraction step returns the first balanced
object provided that object nests at most one level of inner objects
(brace depth at most 2); the regex is limited to that fixed depth, not
arbitrary nesting. -/
theorem extract_json_returns_first_balanced (raw : String) (s : List Char)
    (h : firstBalanced (cleanContent raw.data) = some s)
    (hdep : scanMaxDepth s 0 ≤ 2) :
    extract_json_from_response raw = String.mk s := by
  simp only [extract_json_from_response, extractJsonL]
  rw [regexFirstMatch_eq_firstBalanced _ _ h hdep]

/-- Witness: a concrete content with one level of nesting, surrounded
by prose, from which extraction recovers the first balanced object. -/
theorem extract_json_returns_first_balanced_witness :
    extract_json_from_response "Here: \x7b\"a\": \x7b\"b\": 1\x7d, \"c\": 2\x7d end" =
      String.mk "\x7b\"a\": \x7b\"b\": 1\x7d, \"c\": 2\x7d".data :=
  extract_json_returns_first_balanced
    "Here: \x7b\"a\": \x7b\"b\": 1\x7d, \"c\": 2\x7d end"
    "\x7b\"a\": \x7b\"b\": 1\x7d, \"c\": 2\x7d".data
    (by decide) (by decide)

/-- **C1.**  The decode path of `CriticAgent.evaluate_joke` is total:
every outcome is either a successfully decoded record or exactly the
fixed fallback record (score 50, rating "Teen", single placeholder
strength/weakness/suggestion entries, and the "Evaluation incomplete"
verdict); in particular the empty string, plain prose with no braces,
and truncated JSON all produce the fallback rather than an exception. -/
theorem evaluator_decode_total_with_fallback :
    (∀ raw : String, evaluate_joke_decode raw = fallback_feedback ∨
        decode_core raw = some (evaluate_joke_decode raw)) ∧
    (∀ raw : String, decode_core raw = none →
        evaluate_joke_decode raw = fallback_feedback) ∧
    evaluate_joke_decode "" = fallback_feedback ∧
    evaluate_joke_decode "Sorry, I cannot tell whether that lands." = fallback_feedback ∧
    evaluate_joke_decode "\x7b\"laughability_score\": 80, \"age" = fallback_feedback ∧
    fallback_feedback.laughability_score = 50 ∧
    fallback_feedback.age_appropriateness = "Teen" ∧
    fallback_feedback.strengths.length = 1 ∧
    fallback_feedback.weaknesses.length = 1 ∧
    fallback_feedback.suggestions.length = 1 ∧
    fallback_feedback.overall_verdict =
      "Evaluation incomplete - please try re-evaluation or switch models" := by
  refine ⟨?_, ?_, by decide, by decide, by decide, by decide, by decide,
          by decide, by decide, by decide, by decide⟩
  · intro raw
    cases h : decode_core raw with
    | none => exact Or.inl (by simp [evaluate_joke_decode, h])
    | some fb => exact Or.inr (by simp [evaluate_joke_decode, h])
  · intro raw h
    simp [evaluate_joke_decode, h]

/-- Witness for C1 at the empty string. -/
theorem evaluator_decode_total_with_fallback_witness :
    evaluate_joke_decode "" = fallback_feedback :=
  evaluator_decode_total_with_fallback.2.1 "" (by decide)

/-- **C2.**  Every feedback record produced by the decode stage of
`evaluate_joke` or `reevaluate_joke` — validated or fallback — has an
integer score in [0, 100]. -/
theorem evaluator_score_in_range (raw : String) :
    0 ≤ (evaluate_joke_decode raw).laughability_score ∧
    (evaluate_joke_decode raw).laughability_score ≤ 100 ∧
    0 ≤ (reevaluate_joke_decode raw).laughability_score ∧
    (reevaluate_joke_decode raw).laughability_score ≤ 100 := by
  have key : ∀ fb : JokeFeedback, decode_core raw = some fb →
      0 ≤ fb.laughability_score ∧ fb.laughability_score ≤ 100 := by
    intro fb h
    unfold decode_core at h
    cases hp : parseJson (extract_json_from_response raw) with
    | none => rw [hp] at h; exact Option.noConfusion h
    | some j =>
      rw [hp] at h
      exact (validate_feedback_invariants j fb h).1
  cases h : decode_core raw with
  | none =>
    simp only [evaluate_joke_decode, reevaluate_joke_decode, h, Option.getD_none]
    exact ⟨by decide, by decide, by decide, by decide⟩
  | some fb =>
    simp only [evaluate_joke_decode, reevaluate_joke_decode, h, Option.getD_some]
    obtain ⟨h1, h2⟩ := key fb h
    exact ⟨h1, h2, h1, h2⟩

/-- **C10 counterexample.**  A parsed record with a valid score of 70
but an `age_appropriateness` outside the closed set is not repaired
field by field: the whole record is replaced by the fallback, so the
valid score 70 is not preserved. -/
def c10_input : String :=
  "\x7b\"laughability_score\": 70, \"age_appropriateness\": \"Elder\", \"strengths\": [\"s1\"], \"weaknesses\": [\"w1\"], \"suggestions\": [\"g1\"], \"overall_verdict\": \"ok\"\x7d"

/-- Decoding the record with the invalid audience rating yields the
whole fallback record: score 50 instead of the preserved 70, and the
parsed strengths list is discarded. -/
theorem validation_not_fieldwise_counterexample :
    evaluate_joke_decode c10_input = fallback_feedback ∧
    (evaluate_joke_decode c10_input).laughability_score = 50 ∧
    (evaluate_joke_decode c10_input).laughability_score ≠ 70 ∧
    (evaluate_joke_decode c10_input).strengths ≠ ["s1"] := by
  have h : evaluate_joke_decode c10_input = fallback_feedback := by decide
  rw [h]
  exact ⟨rfl, by decide, by decide, by decide⟩

/-- **C10 (amended).**  Validation of a parsed feedback object is
all-or-nothing: any invalid field (audience rating outside the closed
set, empty or ill-typed list, out-of-range or missing field) causes the
entire record, including its valid fields, to be replaced by the fixed
fallback; a record that validates has all fields legal as parsed, with
no per-field defaulting anywhere. -/
theorem validation_all_or_nothing :
    (∀ (raw : String) (j : Json),
        parseJson (extract_json_from_response raw) = some j →
        validate_feedback j = none →
        evaluate_joke_decode raw = fallback_feedback) ∧
    (∀ (j : Json) (fb : JokeFeedback), validate_feedback j = some fb →
        (fb.age_appropriateness = "Child" ∨ fb.age_appropriateness = "Teen" ∨
           fb.age_appropriateness = "Adult") ∧
        fb.strengths ≠ [] ∧ fb.weaknesses ≠ [] ∧ fb.suggestions ≠ []) := by
  constructor
  · intro raw j hp hv
    simp [evaluate_joke_decode, decode_core, hp, hv]
  · intro j fb h
    exact (validate_feedback_invariants j fb h).2

/-- Witness for C10 at the concrete invalid-audience record. -/
theorem validation_all_or_nothing_witness :
    evaluate_joke_decode c10_input = fallback_feedback :=
  validation_all_or_nothing.1 c10_input
    ((parseJson (extract_json_from_response c10_input)).getD Json.null)
    (by rfl) (by rfl)

/-- A refine action either leaves the state untouched or succeeds. -/
theorem handle_refine_unchanged_or_success
    (f : String → JokeFeedback → Except String String)
    (g : String → Except String JokeFeedback) (s : SessionState) :
    (handle_refine_action f g s).1 = s ∨
    (handle_refine_action f g s).2 = ActionResult.success := by
  unfold handle_refine_action
  cases s.history.getLast? with
  | none => exact Or.inl rfl
  | some latest =>
    cases hi : s.workflow_init with
    | false => simp [hi]
    | true =>
      cases hf : f latest.joke latest.feedback with
      | error e => simp [hi, hf]
      | ok revised =>
        by_cases hr : revised = ""
        · simp [hi, hf, hr]
        · cases hg : g revised with
          | error e => simp [hi, hf, hr, hg]
          | ok fb => simp [hi, hf, hr, hg]

/-- A reevaluate action either leaves the state untouched or succeeds. -/
theorem handle_reevaluate_unchanged_or_success
    (g : String → Except String JokeFeedback) (s : SessionState) :
    (handle_reevaluate_action g s).1 = s ∨
    (handle_reevaluate_action g s).2 = ActionResult.success := by
  unfold handle_reevaluate_action
  cases s.history.getLast? with
  | none => exact Or.inl rfl
  | some latest =>
    cases hi : s.workflow_init with
    | false => simp [hi]
    | true =>
      cases hg : g latest.joke with
      | error e => simp [hi, hg]
      | ok fb => simp [hi, hg]

/-- **C3.**  When a Generator or Evaluator call raises during a revise
or reevaluate action, no cycle is appended and the session state is
exactly what it was before the action (so the same action can be
retried); more generally, every non-successful outcome of either
handler leaves the state untouched. -/
theorem failed_action_leaves_history_unchanged :
    (∀ (f : String → JokeFeedback → Except String String)
       (g : String → Except String JokeFeedback) (s : SessionState),
        (handle_refine_action f g s).2 ≠ ActionResult.success →
        (handle_refine_action f g s).1 = s) ∧
    (∀ (g : String → Except String JokeFeedback) (s : SessionState),
        (handle_reevaluate_action g s).2 ≠ ActionResult.success →
        (handle_reevaluate_action g s).1 = s) ∧
    (∀ (f : String → JokeFeedback → Except String String)
       (g : String → Except String JokeFeedback) (s : SessionState)
       (latest : Cycle) (e : String),
        s.history.getLast? = some latest →
        f latest.joke latest.feedback = Except.error e →
        handle_refine_action f g s = (s, ActionResult.errorCaught)) ∧
    (∀ (f : String → JokeFeedback → Except String String)
       (g : String → Except String JokeFeedback) (s : SessionState)
       (latest : Cycle) (r : String) (e : String),
        s.history.getLast? = some latest →
        f latest.joke latest.feedback = Except.ok r → r ≠ "" →
        g r = Except.error e →
        handle_refine_action f g s = (s, ActionResult.errorCaught)) ∧
    (∀ (g : String → Except String JokeFeedback) (s : SessionState)
       (latest : Cycle) (e : String),
        s.history.getLast? = some latest →
        g latest.joke = Except.error e →
        handle_reevaluate_action g s = (s, ActionResult.errorCaught)) := by
  refine ⟨?_, ?_, ?_, ?_, ?_⟩
  · intro f g s h
    rcases handle_refine_unchanged_or_success f g s with h1 | h2
    · exact h1
    · exact absurd h2 h
  · intro g s h
    rcases handle_reevaluate_unchanged_or_success g s with h1 | h2
    · exact h1
    · exact absurd h2 h
  · intro f g s latest e hl hf
    cases hi : s.workflow_init <;>
      simp [handle_refine_action, hl, hi, hf]
  · intro f g s latest r e hl hf hr hg
    cases hi : s.workflow_init <;>
      simp [handle_refine_action, hl, hi, hf, hr, hg]
  · intro g s latest e hl hg
    cases hi : s.workflow_init <;>
      simp [handle_reevaluate_action, hl, hi, hg]

/-- Witness for C3: a raising evaluator leaves the concrete one-cycle
session untouched. -/
theorem failed_action_leaves_history_unchanged_witness :
    handle_reevaluate_action evalErr s0 = (s0, ActionResult.errorCaught) :=
  failed_action_leaves_history_unchanged.2.2.2.2 evalErr s0 cyc0 "boom" rfl rfl

/-- **C4.**  On a non-empty history with an initialized workflow, a
successful reevaluate appends exactly one `"reevaluated"` cycle whose
joke is byte-identical to the immediately preceding cycle's joke. -/
theorem reevaluate_appends_identical_artifact
    (g : String → Except String JokeFeedback) (s : SessionState)
    (latest : Cycle) (fb : JokeFeedback)
    (hl : s.history.getLast? = some latest) (hi : s.workflow_init = true)
    (hg : g latest.joke = Except.ok fb) :
    handle_reevaluate_action g s =
      ({ s with history := s.history ++ [⟨latest.joke, fb, "reevaluated", none⟩] },
       ActionResult.success) := by
  simp [handle_reevaluate_action, hl, hi, hg]

/-- Witness for C4 on the concrete one-cycle session. -/
theorem reevaluate_appends_identical_artifact_witness :
    handle_reevaluate_action evalOk s0 =
      ({ s0 with history := s0.history ++ [⟨cyc0.joke, fb1, "reevaluated", none⟩] },
       ActionResult.success) :=
  reevaluate_appends_identical_artifact evalOk s0 cyc0 fb1 rfl rfl rfl

/-- **C5 counterexample.**  The handler does not enforce that the
revised joke differs: with a generator that returns the joke
unchanged, a successful revise appends a `"revised"` cycle whose
artifact equals the preceding cycle's artifact. -/
theorem revise_no_difference_counterexample :
    (handle_refine_action reviseEcho evalOk s0).2 = ActionResult.success ∧
    (handle_refine_action reviseEcho evalOk s0).1.history =
      [cyc0, ⟨cyc0.joke, fb1, "revised", some cyc0.joke⟩] ∧
    cyc0.joke = "J" :=
  ⟨rfl, rfl, rfl⟩

/-- **C5 (amended).**  On a non-empty history with an initialized
workflow, a successful revise appends exactly one `"revised"` cycle
carrying the generator's output; the appended artifact differs from
the preceding cycle's artifact whenever the generator returns a
different string (the code itself does not enforce the difference). -/
theorem revise_appends_revised_cycle
    (f : String → JokeFeedback → Except String String)
    (g : String → Except String JokeFeedback) (s : SessionState)
    (latest : Cycle) (r : String) (fb : JokeFeedback)
    (hl : s.history.getLast? = some latest) (hi : s.workflow_init = true)
    (hf : f latest.joke latest.feedback = Except.ok r) (hr : r ≠ "")
    (hg : g r = Except.ok fb) :
    handle_refine_action f g s =
      ({ s with history := s.history ++ [⟨r, fb, "revised", some latest.joke⟩] },
       ActionResult.success) ∧
    (r ≠ latest.joke →
      ((handle_refine_action f g s).1.history.getLast?).map Cycle.joke ≠
        some latest.joke) := by
  have hmain : handle_refine_action f g s =
      ({ s with history := s.history ++ [⟨r, fb, "revised", some latest.joke⟩] },
       ActionResult.success) := by
    simp [handle_refine_action, hl, hi, hf, hr, hg]
  refine ⟨hmain, fun hne => ?_⟩
  rw [hmain]
  simpa using hne

/-- Witness for C5 on the concrete one-cycle session with a distinct
mocked revision. -/
theorem revise_appends_revised_cycle_witness :
    handle_refine_action reviseOk evalOk s0 =
      ({ s0 with history := s0.history ++ [⟨"K", fb1, "revised", some cyc0.joke⟩] },
       ActionResult.success) :=
  (revise_appends_revised_cycle reviseOk evalOk s0 cyc0 "K" fb1 rfl rfl rfl
    (by decide) rfl).1

/-- An empty session that has never run a workflow. -/
def sempty : SessionState := ⟨[], false, false⟩

/-- **C6.**  On an empty history both actions are rejected with the
no-history error, independently of the generator/evaluator functions
(so no network call is observable), and the state — in particular the
empty history — is unchanged. -/
theorem empty_history_rejected
    (f : String → JokeFeedback → Except String String)
    (g g' : String → Except String JokeFeedback) (s : SessionState)
    (h : s.history = []) :
    handle_refine_action f g s = (s, ActionResult.noHistory) ∧
    handle_reevaluate_action g' s = (s, ActionResult.noHistory) := by
  have hl : s.history.getLast? = none := by rw [h]; rfl
  exact ⟨by simp [handle_refine_action, hl], by simp [handle_reevaluate_action, hl]⟩

/-- Witness for C6 on the concrete empty session. -/
theorem empty_history_rejected_witness :
    handle_refine_action reviseOk evalOk sempty = (sempty, ActionResult.noHistory) ∧
    handle_reevaluate_action evalErr sempty = (sempty, ActionResult.noHistory) :=
  empty_history_rejected reviseOk evalOk evalErr sempty rfl

/-- **C7 counterexample.**  After completion no `SessionComplete`
error is ever produced: the action buttons are simply not rendered, so
an attempted revise or reevaluate returns no result at all (`none`)
and the state is untouched — the attempt is prevented, not "rejected
with a SessionComplete error" (no such error value exists in the
code). -/
theorem completed_session_no_error_counterexample :
    handle_complete_action s0 = sdone ∧
    display_evaluation_with_actions reviseOk evalOk evalOk sdone
      UserAction.refine = (sdone, none) ∧
    display_evaluation_with_actions reviseOk evalOk evalOk sdone
      UserAction.reevaluate = (sdone, none) :=
  ⟨rfl, rfl, rfl⟩

/-- **C7 (amended).**  Once `complete` has set `workflow_complete`, no
action (revise, reevaluate, or another complete) reaches a handler: the
dispatch returns the state unchanged with no result value, so no cycle
can be appended; a subsequent successful submit with a non-empty topic
resets the flag to false and starts a fresh single-cycle history. -/
theorem completed_session_blocks_actions :
    (∀ (f : String → JokeFeedback → Except String String)
       (g g' : String → Except String JokeFeedback)
       (s : SessionState) (a : UserAction),
        s.workflow_complete = true →
        display_evaluation_with_actions f g g' s a = (s, none)) ∧
    (∀ s : SessionState, (handle_complete_action s).workflow_complete = true) ∧
    (∀ (b : Except String Unit)
       (runw : String → Except String (String × JokeFeedback))
       (p : String) (s : SessionState) (j : String) (fb : JokeFeedback),
        p ≠ "" → b = Except.ok () → runw p = Except.ok (j, fb) →
        submit_topic b runw p s =
          ({ history := [⟨j, fb, "initial", none⟩], workflow_complete := false,
             workflow_init := true }, SubmitResult.success)) := by
  refine ⟨?_, ?_, ?_⟩
  · intro f g g' s a hwc
    simp [display_evaluation_with_actions, hwc]
  · intro s
    rfl
  · intro b runw p s j fb hp hb hrw
    subst hb
    simp [submit_topic, hp, hrw]

/-- Witness for C7: the completed concrete session ignores a
reevaluate attempt, and a fresh submit resets it. -/
theorem completed_session_blocks_actions_witness :
    display_evaluation_with_actions reviseErr evalErr evalErr sdone
      UserAction.reevaluate = (sdone, none) ∧
    submit_topic (Except.ok ()) (fun _ => Except.ok ("J2", fb1)) "cats" sdone =
      ({ history := [⟨"J2", fb1, "initial", none⟩], workflow_complete := false,
         workflow_init := true }, SubmitResult.success) :=
  ⟨completed_session_blocks_actions.1 reviseErr evalErr evalErr sdone
      UserAction.reevaluate rfl,
   completed_session_blocks_actions.2.2 (Except.ok ())
      (fun _ => Except.ok ("J2", fb1)) "cats" sdone "J2" fb1 (by decide) rfl rfl⟩

/-- **C8.**  Submitting an empty topic is rejected with the
empty-topic warning before anything happens: the state — and in
particular an empty history — is returned unchanged, and the result
does not depend on the workflow functions, so no client call is made. -/
theorem submit_empty_topic_rejected (b : Except String Unit)
    (runw : String → Except String (String × JokeFeedback)) (s : SessionState) :
    submit_topic b runw "" s = (s, SubmitResult.emptyTopic) := by
  simp [submit_topic]

end JokeAgents
